import Mathlib

/-!
Verification of the CanvaMap slippy-map engine.

The definitions below are shallow embeddings of the Python sources under
`src/canvamap/`: floating-point arithmetic is modelled by the real numbers
(`ℝ`) where transcendental functions occur, and by the rationals (`ℚ`)
where the code is purely arithmetic, Python integers by `ℤ`/`ℕ`, and
fallible code by `Except`/`Option`.
-/

namespace CanvaMap

open Real


/-! ## Projection (`tile_handler.degree2tile` / `tile_handler.tile2degree`) -/

/-- Embedding of `tile_handler.degree2tile`: geographic degrees to fractional
Web-Mercator tile coordinates.  `math.radians` is `· * π / 180`. -/
noncomputable def degree2tile (lat_deg lon_deg : ℝ) (zoom : ℕ) : ℝ × ℝ :=
  let lat_rad : ℝ := lat_deg * π / 180
  let n : ℝ := 2 ^ zoom
  ((lon_deg + 180) / 360 * n,
    (1 - Real.log (Real.tan lat_rad + 1 / Real.cos lat_rad) / π) / 2 * n)

/-- Embedding of `tile_handler.tile2degree`: fractional tile coordinates back
to geographic degrees.  `math.degrees` is `· * 180 / π`. -/
noncomputable def tile2degree (x_tile y_tile : ℝ) (zoom : ℕ) : ℝ × ℝ :=
  let n : ℝ := 2 ^ zoom
  let lat_rad : ℝ := Real.arctan (Real.sinh (π * (1 - 2 * y_tile / n)))
  (lat_rad * 180 / π, x_tile / n * 360 - 180)

/-! ## Viewport origin (`canvas_map.CanvasMap._compute_tile_origin`) -/

/-- Embedding of `canvas_map.tile_size`: the fixed 256-pixel tile edge. -/
def tile_size : ℤ := 256

/-- Result record of `_compute_tile_origin` (the 6-tuple it returns). -/
structure TileOrigin (K : Type) where
  start_tile_x : ℤ
  start_tile_y : ℤ
  origin_px_x : K
  origin_px_y : K
  num_x_tiles : ℤ
  num_y_tiles : ℤ
  deriving DecidableEq

/-- Embedding of `CanvasMap._compute_tile_origin`.  Python `//` on
non-negative ints is floor division, embedded as `Int.fdiv`;
`num_x_tiles / 2` is float division.  `offset_x`/`offset_y` is the
accumulated pan offset stored on the widget. -/
def compute_tile_origin {K : Type} [LinearOrderedField K] [FloorRing K]
    (exact_tile_x exact_tile_y : K) (canvas_width canvas_height : ℤ)
    (offset_x offset_y : K) : TileOrigin K :=
  let num_x_tiles : ℤ := canvas_width.fdiv tile_size + 3
  let num_y_tiles : ℤ := canvas_height.fdiv tile_size + 3
  let start_tile_x : ℤ := ⌊exact_tile_x - (num_x_tiles : K) / 2⌋
  let start_tile_y : ℤ := ⌊exact_tile_y - (num_y_tiles : K) / 2⌋
  let offset_px_x : K := (exact_tile_x - (start_tile_x : K)) * (tile_size : K)
  let offset_px_y : K := (exact_tile_y - (start_tile_y : K)) * (tile_size : K)
  { start_tile_x := start_tile_x
    start_tile_y := start_tile_y
    origin_px_x := (canvas_width : K) / 2 - offset_px_x + offset_x
    origin_px_y := (canvas_height : K) / 2 - offset_px_y + offset_y
    num_x_tiles := num_x_tiles
    num_y_tiles := num_y_tiles }

/-- Modelled from the spec's §4.3 algorithm, step by step:
`tileCountX = floor(surfaceW / tileSize) + K`;
`startTileX = floor(exactX - tileCountX/2)`;
`subTileOffsetX = (exactX - startTileX) * tileSize`;
`originPxX = surfaceW/2 - subTileOffsetX + panOffset.dx` (likewise Y),
with `K` the spec's slack constant. -/
def spec_compute_origin (Kc : ℤ) (exact_x exact_y : ℚ)
    (surface_w surface_h : ℤ) (pan_dx pan_dy : ℚ) : TileOrigin ℚ :=
  let tileCountX : ℤ := ⌊(surface_w : ℚ) / (tile_size : ℚ)⌋ + Kc
  let tileCountY : ℤ := ⌊(surface_h : ℚ) / (tile_size : ℚ)⌋ + Kc
  let startTileX : ℤ := ⌊exact_x - (tileCountX : ℚ) / 2⌋
  let startTileY : ℤ := ⌊exact_y - (tileCountY : ℚ) / 2⌋
  let subTileOffsetX : ℚ := (exact_x - (startTileX : ℚ)) * (tile_size : ℚ)
  let subTileOffsetY : ℚ := (exact_y - (startTileY : ℚ)) * (tile_size : ℚ)
  { start_tile_x := startTileX
    start_tile_y := startTileY
    origin_px_x := (surface_w : ℚ) / 2 - subTileOffsetX + pan_dx
    origin_px_y := (surface_h : ℚ) / 2 - subTileOffsetY + pan_dy
    num_x_tiles := tileCountX
    num_y_tiles := tileCountY }

/-! ## Viewport state machine (`canvas_map.CanvasMap`) -/

/-- The mutable widget state that `draw_map` and the pan handlers touch:
`self.lat`, `self.lon`, `self.zoom`, `self.offset_x`, `self.offset_y`. -/
structure MapState where
  lat : ℝ
  lon : ℝ
  zoom : ℕ
  offset_x : ℝ
  offset_y : ℝ

/-- Embedding of `CanvasMap.get_center_latlon`: recompute the geographic
coordinates of the canvas's visual center from the tile origin. -/
noncomputable def get_center_latlon (s : MapState)
    (canvas_width canvas_height : ℤ) : ℝ × ℝ :=
  let e := degree2tile s.lat s.lon s.zoom
  let o := compute_tile_origin e.1 e.2 canvas_width canvas_height
    s.offset_x s.offset_y
  let center_tile_x : ℝ := (o.start_tile_x : ℝ)
    + ((canvas_width : ℝ) / 2 - o.origin_px_x) / (tile_size : ℝ)
  let center_tile_y : ℝ := (o.start_tile_y : ℝ)
    + ((canvas_height : ℝ) / 2 - o.origin_px_y) / (tile_size : ℝ)
  tile2degree center_tile_x center_tile_y s.zoom

/-- Embedding of the state effect of `CanvasMap.draw_map`: when the canvas
is degenerate (`width <= 1 or height <= 1`) the method reschedules itself
and changes nothing; otherwise it renders, zeroes the pan offset, and
re-pins `(lat, lon)` to `get_center_latlon`.  Tile/image bookkeeping has
no effect on this state and is omitted. -/
noncomputable def draw_map (s : MapState) (w h : ℤ) : MapState :=
  if w ≤ 1 ∨ h ≤ 1 then s
  else
    let s' : MapState := { s with offset_x := 0, offset_y := 0 }
    let c := get_center_latlon s' w h
    { s' with lat := c.1, lon := c.2 }

/-- Embedding of `CanvasMap._on_drag` for a pointer move of `(dx, dy)`
pixels: the accumulated pan offset moves opposite to the drag. -/
noncomputable def on_drag (s : MapState) (dx dy : ℝ) : MapState :=
  { s with offset_x := s.offset_x - dx, offset_y := s.offset_y - dy }

/-- Embedding of `CanvasMap._update_center_after_pan`. -/
noncomputable def update_center_after_pan (s : MapState) : MapState :=
  let dx_tiles := s.offset_x / (tile_size : ℝ)
  let dy_tiles := s.offset_y / (tile_size : ℝ)
  let t := degree2tile s.lat s.lon s.zoom
  let c := tile2degree (t.1 + dx_tiles) (t.2 + dy_tiles) s.zoom
  { s with lat := c.1, lon := c.2, offset_x := 0, offset_y := 0 }

open Classical in
/-- Embedding of `CanvasMap._end_drag`: commit the pan (if any) and
redraw. -/
noncomputable def end_drag (s : MapState) (w h : ℤ) : MapState :=
  if s.offset_x ≠ 0 ∨ s.offset_y ≠ 0 then
    draw_map (update_center_after_pan s) w h
  else s

/-! ## Tile fetching (`tile_handler.request_tile`) -/

/-- Cache key `(zoom, x_tile, y_tile)` as used by `tile_memory_cache`. -/
abbrev TileKey := ℤ × ℤ × ℤ

/-- Log messages `request_tile` can emit, in the order the code emits
them. -/
inductive LogEvent where
  | invalidZoomError
  | templateError
  | attemptWarning (attempt : ℕ)
  | fetchFailedError
  deriving DecidableEq

/-- Observable outcome of one `request_tile` call: the returned value
(`BytesIO | None`, with the byte payload abstracted to a token), the cache
after the call, how many HTTP requests were made, and what was logged. -/
structure FetchOutcome where
  result : Option ℕ
  cache : List (TileKey × ℕ)
  net_calls : ℕ
  log : List LogEvent
  deriving DecidableEq

/-- The provider URL template, modelled by which of the `{x}`, `{y}`,
`{z}` placeholders it contains (the only property `request_tile`
inspects). -/
structure ProviderTemplate where
  has_x : Bool
  has_y : Bool
  has_z : Bool

/-- Python dict lookup on the cache (most recent write wins). -/
def cache_get : List (TileKey × ℕ) → TileKey → Option ℕ
  | [], _ => none
  | (k, v) :: rest, key => if k = key then some v else cache_get rest key

/-- The synthesized gray "Missing Tile" raster, as an abstract token. -/
def placeholder_raster : ℕ := 0

/-- Embedding of `tile_handler.request_tile`.  The network is an oracle
`net : ℕ → Option ℕ` giving, per attempt, the body of an HTTP-200
response or `none` for a failed/non-200 attempt. -/
def request_tile (x_tile y_tile zoom : ℤ) (template : ProviderTemplate)
    (cache : List (TileKey × ℕ)) (net : ℕ → Option ℕ) : FetchOutcome :=
  if zoom < 0 ∨ 19 < zoom then
    { result := none, cache := cache, net_calls := 0,
      log := [.invalidZoomError] }
  else if x_tile < 0 ∨ (2 ^ zoom.toNat - 1 : ℤ) < x_tile ∨ y_tile < 0
      ∨ (2 ^ zoom.toNat - 1 : ℤ) < y_tile then
    { result := none, cache := cache, net_calls := 0, log := [] }
  else if ¬(template.has_x ∧ template.has_y ∧ template.has_z) then
    { result := none, cache := cache, net_calls := 0,
      log := [.templateError] }
  else
    let key : TileKey := (zoom, x_tile, y_tile)
    match cache_get cache key with
    | some raw =>
      { result := some raw, cache := cache, net_calls := 0, log := [] }
    | none =>
      match net 0 with
      | some raw =>
        { result := some raw, cache := (key, raw) :: cache,
          net_calls := 1, log := [] }
      | none =>
        match net 1 with
        | some raw =>
          { result := some raw, cache := (key, raw) :: cache,
            net_calls := 2, log := [.attemptWarning 0] }
        | none =>
          { result := some placeholder_raster,
            cache := (key, placeholder_raster) :: cache,
            net_calls := 2,
            log := [.attemptWarning 0, .attemptWarning 1,
              .fetchFailedError] }

/-! ## Layer feature removal (`map_layer.MapLayer.remove_features`) -/

/-- A feature as `remove_features` inspects it: its `id`, its
`geometry_type`, and its `properties` dict (values abstracted to
strings). -/
structure LayerFeature where
  id : String
  geometry_type : String
  properties : List (String × String)

/-- Python `dict.get` on a properties mapping. -/
def props_get : List (String × String) → String → Option String
  | [], _ => none
  | (k, v) :: rest, key => if k = key then some v else props_get rest key

/-- Python truthiness of an `Optional[str]` argument: `None` and the empty
string are falsy. -/
def truthy_str : Option String → Bool
  | none => false
  | some s => !s.isEmpty

/-- Python truthiness of an `Optional[dict]` argument: `None` and the
empty dict are falsy. -/
def truthy_dict : Option (List (String × String)) → Bool
  | none => false
  | some l => !l.isEmpty

/-- Embedding of the nested `matches` predicate of
`MapLayer.remove_features`: each filter is consulted only when truthy. -/
def matches_filters (feature_id geometry_type : Option String)
    (property_filter : Option (List (String × String)))
    (f : LayerFeature) : Bool :=
  if truthy_str feature_id && (f.id ≠ feature_id.getD "") then false
  else if truthy_str geometry_type
      && (f.geometry_type ≠ geometry_type.getD "") then false
  else if truthy_dict property_filter
      && !((property_filter.getD []).all
            (fun kv => props_get f.properties kv.1 == some kv.2)) then false
  else true

/-- Embedding of `MapLayer.remove_features`: returns the surviving feature
list together with the removed count
(`original_count - len(self.features)`). -/
def remove_features (feature_id geometry_type : Option String)
    (property_filter : Option (List (String × String)))
    (features : List LayerFeature) : List LayerFeature × ℕ :=
  let kept := features.filter
    (fun f => !(matches_filters feature_id geometry_type property_filter f))
  (kept, features.length - kept.length)

/-! ## GeoJSON ingestion walk (`geojson_utils.walk_features`) -/

/-- A GeoJSON geometry as `walk_features` distinguishes it: a
`GeometryCollection` with nested geometries, or any other geometry type
(a leaf), carrying its `type` string. -/
inductive Geom where
  | leaf (typ : String)
  | collection (geometries : List Geom)

/-- A GeoJSON object as `walk_features` dispatches on its `type` field:
`props_name` models `obj.get("properties", \x7b\x7d).get("name")` and
`id` models `obj.get("id")`.  A `Feature`'s geometry may be absent. -/
inductive GeoObj where
  | featureCollection (props_name id : Option String)
      (features : List GeoObj)
  | feature (props_name id : Option String) (geometry : Option Geom)
  | bareGeometryCollection (geometries : List Geom)
  | other (typ : String)

/-- Python truthiness filter on a collection label: `None` and `""` are
discarded. -/
def truthy_label : Option String → Option String
  | some s => if s.isEmpty then none else some s
  | none => none

/-- Evaluation of `obj.get("properties").get("name") or obj.get("id")`,
kept only when truthy. -/
def label_of (props_name id : Option String) : Option String :=
  match truthy_label props_name with
  | some s => some s
  | none => truthy_label id

/-- Evaluation of `parent_chain + [name] if name else parent_chain`. -/
def chain_with (label : Option String) (chain : List String) :
    List String :=
  match label with
  | some s => chain ++ [s]
  | none => chain

/-- The sub-walk `walk_features` performs over the `geometries` of a
`Feature`'s `GeometryCollection`: each sub-geometry is wrapped as a
`Feature` carrying the parent's properties (and no `id`) and walked
recursively, so collections nested inside collections expand further. -/
def walk_subs (pn : Option String) :
    List Geom → List String → List (GeoObj × List String)
  | [], _ => []
  | g :: gs, chain =>
    ((.feature pn none (some g)), chain) ::
      ((match g with
        | .collection gs' =>
          walk_subs pn gs' (chain_with (label_of pn none) chain)
        | .leaf _ => []) ++ walk_subs pn gs chain)

mutual

/-- Embedding of `geojson_utils.walk_features`: yields each feature leaf
with its ancestor-collection chain.  `FeatureCollection` members are
walked recursively; a `Feature` yields itself and then, if its geometry
is a `GeometryCollection`, each wrapped sub-geometry; any other top-level
type — including a bare `GeometryCollection` — is ignored. -/
def walk_features : GeoObj → List String → List (GeoObj × List String)
  | .featureCollection pn pid feats, chain =>
    walk_list feats (chain_with (label_of pn pid) chain)
  | .feature pn pid geom, chain =>
    (.feature pn pid geom, chain) ::
      (match geom with
        | some (.collection gs) =>
          walk_subs pn gs (chain_with (label_of pn pid) chain)
        | _ => [])
  | .bareGeometryCollection _, _ => []
  | .other _, _ => []

/-- Iteration of `yield from walk_features(feat, chain)` over a feature list. -/
def walk_list : List GeoObj → List String → List (GeoObj × List String)
  | [], _ => []
  | o :: os, chain => walk_features o chain ++ walk_list os chain

end

mutual

/-- The claim's expected count for a bare `GeometryCollection`: one
feature per leaf geometry it contains. -/
def leaf_count : Geom → ℕ
  | .leaf _ => 1
  | .collection gs => leaf_list_count gs

/-- Sum of `leaf_count` over a geometry list. -/
def leaf_list_count : List Geom → ℕ
  | [] => 0
  | g :: gs => leaf_count g + leaf_list_count gs

end

/-! ## Hole-aware polygon rasterization
(`drawing_utils.draw_feature_with_holes`) and the shape-layer draw pass
(`map_layer.ShapeLayer.draw`) -/

/-- The Python exceptions the draw path can raise. -/
inductive DrawError where
  | indexError
  | typeError
  | valueError
  deriving DecidableEq

/-- The two shapes `Feature.__post_init__` stores in `feat.geoms` for the
shape layer: a Polygon is a flat list of rings, a MultiPolygon a list of
per-polygon ring lists.  The unsupported/malformed case is `flat []`
(an empty `geoms` list). -/
inductive ShapeGeoms where
  | flat (rings : List (List (ℚ × ℚ)))
  | nested (polys : List (List (List (ℚ × ℚ))))

/-- A shape feature as `ShapeLayer.draw` consumes it. -/
structure ShapeFeature where
  sequence_index : ℕ
  geoms : ShapeGeoms

/-- A shape layer: visibility flag plus its feature list. -/
structure ShapeLayerState where
  visible : Bool
  features : List ShapeFeature

/-- Python `min(x, *xs)` over a list; the empty case (which raises
`ValueError` in Python) is guarded at every use site. -/
def py_min_list : List ℚ → ℚ
  | [] => 0
  | x :: xs => xs.foldl min x

/-- Python `max(x, *xs)` over a list; empty case guarded at use sites. -/
def py_max_list : List ℚ → ℚ
  | [] => 0
  | x :: xs => xs.foldl max x

/-- Python `int()`: truncation toward zero. -/
def py_int (q : ℚ) : ℤ := if 0 ≤ q then ⌊q⌋ else ⌈q⌉

/-- Evaluation of `[project_fn(lat, lon) for lon, lat in ring]`: geoms store
`(lon, lat)` pairs and projection takes `(lat, lon)`. -/
def project_ring (project : ℚ → ℚ → ℚ × ℚ) (ring : List (ℚ × ℚ)) :
    List (ℚ × ℚ) :=
  ring.map (fun q => project q.2 q.1)

/-- Evaluation of `[(x - min_x, y - min_y) for x, y in ring]`. -/
def shift_ring (dx dy : ℤ) (ring : List (ℚ × ℚ)) : List (ℚ × ℚ) :=
  ring.map (fun q => (q.1 - (dx : ℚ), q.2 - (dy : ℚ)))

/-- The consecutive edges of a polygon outline, including the closing
edge back to the first vertex. -/
def edges_of (poly : List (ℚ × ℚ)) : List ((ℚ × ℚ) × (ℚ × ℚ)) :=
  match poly with
  | [] => []
  | p :: ps => poly.zip (ps ++ [p])

/-- Whether a horizontal ray from `pt` to the right crosses edge `e`
(standard even-odd crossing test). -/
def ray_crosses (pt : ℚ × ℚ) (e : (ℚ × ℚ) × (ℚ × ℚ)) : Bool :=
  (decide (e.1.2 ≤ pt.2) != decide (e.2.2 ≤ pt.2)) &&
    decide (pt.1 < e.1.1 + (pt.2 - e.1.2) * (e.2.1 - e.1.1) / (e.2.2 - e.1.2))

/-- Modelled from the spec: the set of pixels PIL's
`ImageDraw.polygon(..., fill=v)` paints, taken as the even-odd interior
of the polygon. -/
def inside_poly (poly : List (ℚ × ℚ)) (pt : ℚ × ℚ) : Bool :=
  ((edges_of poly).filter (ray_crosses pt)).length % 2 == 1

/-- One `draw.polygon(ring, fill=v)` call on a single-channel mask:
pixels inside the ring take the new value, all others keep their old
value. -/
def draw_polygon_fill (mask : ℤ × ℤ → ℕ) (poly : List (ℚ × ℚ)) (v : ℕ) :
    ℤ × ℤ → ℕ :=
  fun p => if inside_poly poly ((p.1 : ℚ), (p.2 : ℚ)) then v else mask p

/-- The per-polygon overlay built inside `draw_feature_with_holes`:
bounding-box corner, `Image.new("L", (w, h), 0)` size, and the final
mask contents. -/
structure PolygonOverlay where
  min_x : ℤ
  min_y : ℤ
  w : ℤ
  h : ℤ
  mask : ℤ × ℤ → ℕ

/-- Embedding of the body of the `for polygon_rings in polygons` loop of
`drawing_utils.draw_feature_with_holes`: project every ring, compute the
pixel bounding box, then paint the first ring with 255 and every
subsequent ring with 0. -/
def process_polygon (project : ℚ → ℚ → ℚ × ℚ)
    (polygon_rings : List (List (ℚ × ℚ))) :
    Except DrawError PolygonOverlay :=
  let all_xy := polygon_rings.map (project_ring project)
  let pts := all_xy.flatten
  if pts.isEmpty then .error .valueError
  else
    let xs := pts.map (·.1)
    let ys := pts.map (·.2)
    let min_x := py_int (py_min_list xs)
    let max_x := py_int (py_max_list xs)
    let min_y := py_int (py_min_list ys)
    let max_y := py_int (py_max_list ys)
    let shifted := all_xy.map (shift_ring min_x min_y)
    let mask1 := draw_polygon_fill (fun _ => 0) (shifted.headD []) 255
    let mask := (shifted.drop 1).foldl
      (fun m hole => draw_polygon_fill m hole 0) mask1
    .ok ⟨min_x, min_y, max_x - min_x, max_y - min_y, mask⟩

/-- Embedding of `drawing_utils.draw_feature_with_holes`: a MultiPolygon
(`feat.geometry_type == "MultiPolygon"`, i.e. nested geoms) is processed
as independent polygons, each with its own first-ring/holes mask; a
Polygon is the single-element case. -/
def draw_feature_with_holes (project : ℚ → ℚ → ℚ × ℚ) :
    ShapeGeoms → Except DrawError (List PolygonOverlay)
  | .nested polys => polys.mapM (process_polygon project)
  | .flat rings => (process_polygon project rings).map (fun ov => [ov])

/-- Total accessor on a fetch-overlay result, used to state properties of
the successful case. -/
def overlay_of (e : Except DrawError PolygonOverlay) : PolygonOverlay :=
  match e with
  | .ok ov => ov
  | .error _ => ⟨0, 0, 0, 0, fun _ => 0⟩

/-- Embedding of the `first = feat.geoms[0]` and `isinstance` dispatch
at the top of `ShapeLayer.draw`, with the exceptions each input shape
triggers: an empty `geoms` list raises `IndexError`; a Polygon whose
first ring is empty falls into the MultiPolygon branch and then fails
while unpacking coordinates (`TypeError`), or on `max()` of no
coordinates (`ValueError`). -/
def shape_rings : ShapeGeoms → Except DrawError (List (List (ℚ × ℚ)))
  | .flat [] => .error .indexError
  | .nested [] => .error .indexError
  | .flat (r0 :: rest) =>
    if r0.isEmpty then
      if ((r0 :: rest).flatten).isEmpty then .error .valueError
      else .error .typeError
    else .ok (r0 :: rest)
  | .nested (p0 :: rest) => .ok ((p0 :: rest).flatten)

/-- The per-feature body of `ShapeLayer.draw`: extract the ring list,
compute the lat/lon extrema, cull against the canvas bounds, then draw
(returning the feature's `sequence_index` as its drawn tag).  Any raised
exception is the `Except.error` case. -/
def draw_shape_feature (project : ℚ → ℚ → ℚ × ℚ)
    (bounds : ℚ × ℚ × ℚ × ℚ) (f : ShapeFeature) :
    Except DrawError (List ℕ) :=
  match shape_rings f.geoms with
  | .error e => .error e
  | .ok rings =>
    let pts := rings.flatten
    if pts.isEmpty then .error .valueError
    else
      let lats := pts.map (·.2)
      let lons := pts.map (·.1)
      if py_max_list lats < bounds.2.1 ∨ py_min_list lats > bounds.2.2.2
          ∨ py_max_list lons < bounds.1 ∨ py_min_list lons > bounds.2.2.1
      then .ok []
      else
        match draw_feature_with_holes project f.geoms with
        | .error e => .error e
        | .ok _ => .ok [f.sequence_index]

/-- Embedding of the `for feat in self.features` loop of `ShapeLayer.draw` (plus its
initial visibility guard): a raised exception aborts the remaining
features. -/
def shape_layer_draw (project : ℚ → ℚ → ℚ × ℚ)
    (bounds : ℚ × ℚ × ℚ × ℚ) (layer : ShapeLayerState) :
    Except DrawError (List ℕ) :=
  if !layer.visible then .ok []
  else layer.features.foldlM
    (fun acc f => (draw_shape_feature project bounds f).map (acc ++ ·)) []

/-- Embedding of `CanvasMap._draw_layers` over shape layers: each visible
layer draws in order; an exception raised by one layer's draw aborts the
whole pass. -/
def draw_layers_pass (project : ℚ → ℚ → ℚ × ℚ)
    (bounds : ℚ × ℚ × ℚ × ℚ) (layers : List ShapeLayerState) :
    Except DrawError (List ℕ) :=
  layers.foldlM
    (fun acc l =>
      if l.visible then (shape_layer_draw project bounds l).map (acc ++ ·)
      else .ok acc) []

/-- Demonstration projection for the C9 witness: pixel space equals
`(lon, lat)`. -/
def demo_project : ℚ → ℚ → ℚ × ℚ := fun lat lon => (lon, lat)

/-- Demonstration outer ring (a 10×10 square). -/
def demo_outer : List (ℚ × ℚ) := [(0, 0), (10, 0), (10, 10), (0, 10)]

/-- Demonstration hole ring (a 3×3 square inside `demo_outer`). -/
def demo_hole : List (ℚ × ℚ) := [(2, 2), (5, 2), (5, 5), (2, 5)]

/-! ## Theorems -/

/-! ### Round-trip lemmas -/

lemma tan_add_inv_cos_eq {φ : ℝ} (hc : Real.cos φ ≠ 0) :
    Real.tan φ + 1 / Real.cos φ = (Real.sin φ + 1) / Real.cos φ := by
  rw [Real.tan_eq_sin_div_cos]
  field_simp

lemma neg_one_lt_sin_of_abs_lt {φ : ℝ} (h1 : -(π / 2) < φ) (h2 : φ < π / 2) :
    -1 < Real.sin φ := by
  have := Real.sin_lt_sin_of_lt_of_le_pi_div_two (le_refl (-(π / 2)))
    (le_of_lt h2) h1
  rwa [Real.sin_neg, Real.sin_pi_div_two] at this

lemma tan_add_inv_cos_pos {φ : ℝ} (h1 : -(π / 2) < φ) (h2 : φ < π / 2) :
    0 < Real.tan φ + 1 / Real.cos φ := by
  have hcos : 0 < Real.cos φ := Real.cos_pos_of_mem_Ioo ⟨h1, h2⟩
  have hsin : -1 < Real.sin φ := neg_one_lt_sin_of_abs_lt h1 h2
  rw [tan_add_inv_cos_eq (ne_of_gt hcos)]
  exact div_pos (by linarith) hcos

/-- The hyperbolic sine of the log of the Mercator stretch factor recovers
the tangent of the latitude. -/
lemma sinh_log_tan {φ : ℝ} (h1 : -(π / 2) < φ) (h2 : φ < π / 2) :
    Real.sinh (Real.log (Real.tan φ + 1 / Real.cos φ)) = Real.tan φ := by
  have hcos : 0 < Real.cos φ := Real.cos_pos_of_mem_Ioo ⟨h1, h2⟩
  have hsin : -1 < Real.sin φ := neg_one_lt_sin_of_abs_lt h1 h2
  have hpos : 0 < Real.tan φ + 1 / Real.cos φ := tan_add_inv_cos_pos h1 h2
  rw [Real.sinh_log hpos, tan_add_inv_cos_eq (ne_of_gt hcos),
    Real.tan_eq_sin_div_cos]
  have hc : Real.cos φ ≠ 0 := ne_of_gt hcos
  have hs1 : Real.sin φ + 1 ≠ 0 := by linarith
  have hpyth : Real.sin φ ^ 2 + Real.cos φ ^ 2 = 1 := Real.sin_sq_add_cos_sq φ
  field_simp
  nlinarith [hpyth]

/-- Exact round trip of the projection for `|lat| < 90`:
`tile2degree ∘ degree2tile = id` over the reals. -/
lemma tile2degree_degree2tile (lat lon : ℝ) (zoom : ℕ) (h : |lat| < 90) :
    tile2degree (degree2tile lat lon zoom).1 (degree2tile lat lon zoom).2 zoom
      = (lat, lon) := by
  have hpi : (0 : ℝ) < π := Real.pi_pos
  have hpi' : π ≠ 0 := ne_of_gt hpi
  have hn : (0 : ℝ) < 2 ^ zoom := by positivity
  have hn' : (2 : ℝ) ^ zoom ≠ 0 := ne_of_gt hn
  obtain ⟨hlo, hhi⟩ := abs_lt.mp h
  have hφhi : lat * π / 180 < π / 2 := by
    have : lat * π < 90 * π := mul_lt_mul_of_pos_right hhi hpi
    linarith
  have hφlo : -(π / 2) < lat * π / 180 := by
    have : (-90 : ℝ) * π < lat * π := mul_lt_mul_of_pos_right hlo hpi
    linarith
  simp only [degree2tile, tile2degree, Prod.mk.injEq]
  constructor
  · have harg :
        π * (1 - 2 * ((1 - Real.log (Real.tan (lat * π / 180)
            + 1 / Real.cos (lat * π / 180)) / π) / 2 * (2 : ℝ) ^ zoom)
          / (2 : ℝ) ^ zoom)
        = Real.log (Real.tan (lat * π / 180)
            + 1 / Real.cos (lat * π / 180)) := by
      field_simp
      ring
    rw [harg, sinh_log_tan hφlo hφhi, Real.arctan_tan hφlo hφhi]
    field_simp
  · field_simp
    ring

/-- C1: for every latitude `lat` with `|lat| < 85.05`, every longitude `lon`,
and every natural zoom, `tile2degree` applied to `degree2tile lat lon zoom`
at the same zoom returns `(lat, lon)` within `1e-9` degrees in each
component. -/
theorem degree2tile_roundtrip_within_tol (lat lon : ℝ) (zoom : ℕ)
    (h : |lat| < 85.05) :
    |(tile2degree (degree2tile lat lon zoom).1 (degree2tile lat lon zoom).2
        zoom).1 - lat| < 1e-9 ∧
    |(tile2degree (degree2tile lat lon zoom).1 (degree2tile lat lon zoom).2
        zoom).2 - lon| < 1e-9 := by
  have h90 : |lat| < 90 := lt_trans h (by norm_num)
  rw [tile2degree_degree2tile lat lon zoom h90]
  norm_num

/-- Witness for C1 at `lat = 0`, `lon = 0`, `zoom = 0`. -/
theorem degree2tile_roundtrip_within_tol_witness :
    |(tile2degree (degree2tile 0 0 0).1 (degree2tile 0 0 0).2 0).1 - 0|
        < 1e-9 ∧
    |(tile2degree (degree2tile 0 0 0).1 (degree2tile 0 0 0).2 0).2 - 0|
        < 1e-9 :=
  degree2tile_roundtrip_within_tol 0 0 0 (by norm_num)

lemma fdiv_tile_size_eq_floor (w : ℤ) :
    w.fdiv tile_size = ⌊(w : ℚ) / (tile_size : ℚ)⌋ := by
  rw [show tile_size = ((256 : ℕ) : ℤ) from rfl,
    Int.fdiv_eq_ediv _ (by norm_num)]
  rw [show (((256 : ℕ) : ℤ) : ℚ) = ((256 : ℕ) : ℚ) by norm_num,
    Rat.floor_intCast_div_natCast]

/-- C2: the implemented origin computation follows the spec's algorithm
exactly, with slack constant `K = 3 ≥ 2`: tile counts are
`floor(surface / tileSize) + 3`, start tiles are
`floor(exact - count/2)`, and the pixel origin is
`surface/2 - (exact - start) * tileSize + panOffset`. -/
theorem compute_tile_origin_follows_spec (exact_x exact_y : ℚ)
    (w h : ℤ) (ox oy : ℚ) :
    compute_tile_origin exact_x exact_y w h ox oy
      = spec_compute_origin 3 exact_x exact_y w h ox oy ∧ (2 : ℤ) ≤ 3 := by
  refine ⟨?_, by norm_num⟩
  simp only [compute_tile_origin, spec_compute_origin,
    fdiv_tile_size_eq_floor]

/-- Witness for C2 at a concrete viewport configuration. -/
theorem compute_tile_origin_follows_spec_witness :
    compute_tile_origin (37/2 : ℚ) (11/4 : ℚ) 500 300 (-10 : ℚ) 0
      = spec_compute_origin 3 (37/2 : ℚ) (11/4 : ℚ) 500 300 (-10 : ℚ) 0
      ∧ (2 : ℤ) ≤ 3 :=
  compute_tile_origin_follows_spec (37/2) (11/4) 500 300 (-10) 0

/-! ### Redraw lemmas -/

/-- With a zero pan offset, `get_center_latlon` is exactly the projection
round trip of the stored center. -/
lemma get_center_latlon_zero_offset (s : MapState) (w h : ℤ)
    (hx : s.offset_x = 0) (hy : s.offset_y = 0) :
    get_center_latlon s w h
      = tile2degree (degree2tile s.lat s.lon s.zoom).1
          (degree2tile s.lat s.lon s.zoom).2 s.zoom := by
  have h256 : ((tile_size : ℤ) : ℝ) ≠ 0 := by norm_num [tile_size]
  simp only [get_center_latlon, compute_tile_origin, hx, hy]
  congr 1 <;> field_simp

/-- The latitude in degrees that `tile2degree` returns is strictly inside
`(-90, 90)`. -/
lemma arctan_deg_abs_lt_90 (v : ℝ) : |Real.arctan v * 180 / π| < 90 := by
  have hpi : (0 : ℝ) < π := Real.pi_pos
  rw [abs_lt]
  constructor
  · rw [lt_div_iff₀ hpi]
    linarith [Real.neg_pi_div_two_lt_arctan v]
  · rw [div_lt_iff₀ hpi]
    linarith [Real.arctan_lt_pi_div_two v]

lemma tile2degree_lat_abs_lt_90 (x y : ℝ) (z : ℕ) :
    |(tile2degree x y z).1| < 90 :=
  arctan_deg_abs_lt_90 _

/-- The latitude component of `tile2degree` does not depend on `x_tile`;
in particular it round-trips whenever the `y_tile` input came from
`degree2tile` at a latitude inside `(-90, 90)`. -/
lemma tile2degree_lat_roundtrip (lat lon x' : ℝ) (z : ℕ) (h : |lat| < 90) :
    (tile2degree x' (degree2tile lat lon z).2 z).1 = lat := by
  have h1 : (tile2degree x' (degree2tile lat lon z).2 z).1
      = (tile2degree (degree2tile lat lon z).1
          (degree2tile lat lon z).2 z).1 := rfl
  rw [h1, tile2degree_degree2tile lat lon z h]

/-- A non-degenerate `draw_map` zeroes the pan offset and replaces the
center with its own projection round trip. -/
lemma draw_map_eq (s : MapState) (w h : ℤ) (hw : 1 < w) (hh : 1 < h) :
    draw_map s w h =
      { lat := (tile2degree (degree2tile s.lat s.lon s.zoom).1
            (degree2tile s.lat s.lon s.zoom).2 s.zoom).1,
        lon := (tile2degree (degree2tile s.lat s.lon s.zoom).1
            (degree2tile s.lat s.lon s.zoom).2 s.zoom).2,
        zoom := s.zoom, offset_x := 0, offset_y := 0 } := by
  have hcond : ¬(w ≤ 1 ∨ h ≤ 1) := by omega
  simp only [draw_map, if_neg hcond]
  rw [get_center_latlon_zero_offset _ _ _ rfl rfl]

/-- C3: a completed redraw commits the pan state (`offset = (0,0)`) and a
second redraw with the same surface and no intervening input moves the
stored center by less than `1e-9` degrees in each component. -/
theorem draw_map_commits_and_idempotent (s : MapState) (w h : ℤ)
    (hw : 1 < w) (hh : 1 < h) :
    (draw_map s w h).offset_x = 0 ∧ (draw_map s w h).offset_y = 0 ∧
    |(draw_map (draw_map s w h) w h).lat - (draw_map s w h).lat| < 1e-9 ∧
    |(draw_map (draw_map s w h) w h).lon - (draw_map s w h).lon| < 1e-9 := by
  have h90 := tile2degree_lat_abs_lt_90 (degree2tile s.lat s.lon s.zoom).1
    (degree2tile s.lat s.lon s.zoom).2 s.zoom
  rw [draw_map_eq s w h hw hh, draw_map_eq _ w h hw hh]
  rw [tile2degree_degree2tile _ _ _ h90]
  norm_num

/-- Witness for C3 at center `(0, 0)`, zoom 0, a 500×500 surface. -/
theorem draw_map_commits_and_idempotent_witness :
    (draw_map ⟨0, 0, 0, 0, 0⟩ 500 500).offset_x = 0 ∧
    (draw_map ⟨0, 0, 0, 0, 0⟩ 500 500).offset_y = 0 ∧
    |(draw_map (draw_map ⟨0, 0, 0, 0, 0⟩ 500 500) 500 500).lat
        - (draw_map ⟨0, 0, 0, 0, 0⟩ 500 500).lat| < 1e-9 ∧
    |(draw_map (draw_map ⟨0, 0, 0, 0, 0⟩ 500 500) 500 500).lon
        - (draw_map ⟨0, 0, 0, 0, 0⟩ 500 500).lon| < 1e-9 :=
  draw_map_commits_and_idempotent ⟨0, 0, 0, 0, 0⟩ 500 500
    (by norm_num) (by norm_num)

/-! ### Pan commitment -/

lemma degree2tile_fst (lat lon : ℝ) (z : ℕ) :
    (degree2tile lat lon z).1 = (lon + 180) / 360 * 2 ^ z := rfl

/-- Panning leaves the latitude fixed when the vertical offset is zero. -/
lemma update_center_lat (s : MapState) (hy : s.offset_y = 0)
    (h : |s.lat| < 90) :
    (update_center_after_pan s).lat = s.lat := by
  simp only [update_center_after_pan, hy]
  rw [zero_div, add_zero]
  exact tile2degree_lat_roundtrip s.lat s.lon _ s.zoom h

lemma update_center_lon (s : MapState) :
    (update_center_after_pan s).lon
      = ((degree2tile s.lat s.lon s.zoom).1
          + s.offset_x / ((tile_size : ℤ) : ℝ)) / 2 ^ s.zoom * 360 - 180 :=
  rfl

/-- C5: from center `(38.9, -77.0)` at zoom 15 on a 500×500 surface with no
pending pan, dragging by `(dx=100, dy=0)` pixels and releasing yields a
center strictly west of the original longitude, the identical latitude,
and a pan offset reset to `(0, 0)`. -/
theorem pan_commit_moves_center_west :
    (end_drag (on_drag ⟨38.9, -77, 15, 0, 0⟩ 100 0) 500 500).lon < -77 ∧
    (end_drag (on_drag ⟨38.9, -77, 15, 0, 0⟩ 100 0) 500 500).lat = 38.9 ∧
    (end_drag (on_drag ⟨38.9, -77, 15, 0, 0⟩ 100 0) 500 500).offset_x = 0 ∧
    (end_drag (on_drag ⟨38.9, -77, 15, 0, 0⟩ 100 0) 500 500).offset_y = 0 := by
  have hs : on_drag ⟨38.9, -77, 15, 0, 0⟩ 100 0
      = (⟨38.9, -77, 15, -100, 0⟩ : MapState) := by
    simp only [on_drag]
    norm_num
  rw [hs]
  have hcond : ((⟨38.9, -77, 15, -100, 0⟩ : MapState).offset_x ≠ 0
      ∨ (⟨38.9, -77, 15, -100, 0⟩ : MapState).offset_y ≠ 0) :=
    Or.inl (by norm_num)
  simp only [end_drag, if_pos hcond]
  set s2 := update_center_after_pan ⟨38.9, -77, 15, -100, 0⟩ with hs2
  have hlat : s2.lat = 38.9 :=
    update_center_lat ⟨38.9, -77, 15, -100, 0⟩ rfl
      (by rw [abs_lt]; constructor <;> norm_num)
  have hlat90 : |s2.lat| < 90 := by
    rw [hlat, abs_lt]
    constructor <;> norm_num
  have hlon : s2.lon < -77 := by
    rw [hs2, update_center_lon, degree2tile_fst]
    norm_num [tile_size]
  have hrt := tile2degree_degree2tile s2.lat s2.lon s2.zoom hlat90
  rw [draw_map_eq s2 500 500 (by norm_num) (by norm_num)]
  dsimp only
  rw [hrt]
  exact ⟨hlon, hlat, rfl, rfl⟩

/-- An in-range zoom with an out-of-range tile index returns `None`
before the cache, template, and network stages. -/
lemma request_tile_off_world_aux (x y z : ℤ) (hz0 : 0 ≤ z) (hz19 : z ≤ 19)
    (hout : x < 0 ∨ (2 ^ z.toNat : ℤ) ≤ x ∨ y < 0 ∨ (2 ^ z.toNat : ℤ) ≤ y)
    (template : ProviderTemplate) (cache : List (TileKey × ℕ))
    (net : ℕ → Option ℕ) :
    request_tile x y z template cache net
      = { result := none, cache := cache, net_calls := 0, log := [] } := by
  rw [request_tile, if_neg (by omega), if_pos (by omega)]

/-- C6: for every zoom in the supported range `0..19` and every tile index
out of `[0, 2^zoom)` — in particular `(zoom=3, x=8, y=8)` — `request_tile`
returns the "no tile" value `None` with no network request and no cache
write. -/
theorem request_tile_off_world_no_network (x y z : ℤ) (hz0 : 0 ≤ z)
    (hz19 : z ≤ 19)
    (hout : x < 0 ∨ (2 ^ z.toNat : ℤ) ≤ x ∨ y < 0 ∨ (2 ^ z.toNat : ℤ) ≤ y)
    (template : ProviderTemplate) (cache : List (TileKey × ℕ))
    (net : ℕ → Option ℕ) :
    request_tile x y z template cache net
      = { result := none, cache := cache, net_calls := 0, log := [] } :=
  request_tile_off_world_aux x y z hz0 hz19 hout template cache net

/-- Witness for C6 at the spec's example `(zoom=3, x=8, y=8)`. -/
theorem request_tile_off_world_no_network_witness :
    request_tile 8 8 3 ⟨true, true, true⟩ [] (fun _ => none)
      = { result := none, cache := [], net_calls := 0, log := [] } :=
  request_tile_off_world_no_network 8 8 3 (by norm_num) (by norm_num)
    (by right; left; decide) ⟨true, true, true⟩ [] (fun _ => none)

/-- C7: a zoom outside `0..19` makes `request_tile` return without any
network call, logging the invalid-zoom error; the logged outcome differs
from the silent off-world "no tile" outcome an in-range zoom with an
out-of-bounds index produces. -/
theorem request_tile_invalid_zoom (x y z : ℤ) (hz : z < 0 ∨ 19 < z)
    (template : ProviderTemplate) (cache : List (TileKey × ℕ))
    (net : ℕ → Option ℕ) (x' y' z' : ℤ) (hz0' : 0 ≤ z') (hz19' : z' ≤ 19)
    (hout' : x' < 0 ∨ (2 ^ z'.toNat : ℤ) ≤ x' ∨ y' < 0
      ∨ (2 ^ z'.toNat : ℤ) ≤ y')
    (template' : ProviderTemplate) (cache' : List (TileKey × ℕ))
    (net' : ℕ → Option ℕ) :
    request_tile x y z template cache net
      = { result := none, cache := cache, net_calls := 0,
          log := [.invalidZoomError] } ∧
    (request_tile x y z template cache net).log
      ≠ (request_tile x' y' z' template' cache' net').log := by
  have h1 : request_tile x y z template cache net
      = { result := none, cache := cache, net_calls := 0,
          log := [.invalidZoomError] } := by
    rw [request_tile, if_pos hz]
  refine ⟨h1, ?_⟩
  rw [h1, request_tile_off_world_aux x' y' z' hz0' hz19' hout'
    template' cache' net']
  simp

/-- Witness for C7 at `zoom = 20` against the off-world call
`(zoom=3, x=8, y=8)`. -/
theorem request_tile_invalid_zoom_witness :
    request_tile 0 0 20 ⟨true, true, true⟩ [] (fun _ => none)
      = { result := none, cache := [], net_calls := 0,
          log := [.invalidZoomError] } ∧
    (request_tile 0 0 20 ⟨true, true, true⟩ [] (fun _ => none)).log
      ≠ (request_tile 8 8 3 ⟨true, true, true⟩ [] (fun _ => none)).log :=
  request_tile_invalid_zoom 0 0 20 (by norm_num) ⟨true, true, true⟩ []
    (fun _ => none) 8 8 3 (by norm_num) (by norm_num)
    (by right; left; decide) ⟨true, true, true⟩ [] (fun _ => none)

/-- C10: with every filter `None` — and likewise with the falsy values
empty-string `feature_id` and empty `property_filter` dict, which are
ignored rather than matched against — `remove_features` matches every
feature: it empties the layer and returns the prior feature count. -/
theorem remove_features_all_falsy_removes_all
    (features : List LayerFeature) :
    remove_features none none none features = ([], features.length) ∧
    remove_features (some "") none (some []) features
      = ([], features.length) := by
  constructor <;>
    simp [remove_features, matches_filters, truthy_str, truthy_dict,
      show "".isEmpty = true from rfl]

/-- Witness for C10 on a two-feature layer. -/
theorem remove_features_all_falsy_removes_all_witness :
    remove_features none none none
        [⟨"a", "Point", []⟩, ⟨"b", "Polygon", [("k", "v")]⟩]
      = ([], 2) ∧
    remove_features (some "") none (some [])
        [⟨"a", "Point", []⟩, ⟨"b", "Polygon", [("k", "v")]⟩]
      = ([], 2) :=
  remove_features_all_falsy_removes_all
    [⟨"a", "Point", []⟩, ⟨"b", "Polygon", [("k", "v")]⟩]

/-- C8 counterexample: a bare top-level `GeometryCollection` holding one
`Point` leaf yields no features at all from the walk, not one per leaf. -/
theorem walk_features_bare_gc_counterexample :
    walk_features (.bareGeometryCollection [.leaf "Point"]) [] = [] ∧
    (walk_features (.bareGeometryCollection [.leaf "Point"]) []).length
      ≠ leaf_list_count [.leaf "Point"] := by
  constructor
  · simp [walk_features]
  · simp [walk_features, leaf_list_count, leaf_count]

/-- C8 amended: the walk ignores a bare top-level `GeometryCollection`
entirely (no features are produced from it); a `GeometryCollection` is
expanded into per-geometry features only when it appears as the geometry
of a `Feature`. -/
theorem walk_features_ignores_bare_gc (gs : List Geom)
    (chain : List String) :
    walk_features (.bareGeometryCollection gs) chain = [] ∧
    walk_features (.feature none none (some (.collection gs))) chain
      = (.feature none none (some (.collection gs)), chain)
          :: walk_subs none gs chain := by
  constructor <;> simp [walk_features, chain_with, label_of, truthy_label]

/-- Witness for the amended C8 on a one-leaf collection. -/
theorem walk_features_ignores_bare_gc_witness :
    walk_features (.bareGeometryCollection [.leaf "Point"]) [] = [] ∧
    walk_features (.feature none none (some (.collection [.leaf "Point"])))
        []
      = (.feature none none (some (.collection [.leaf "Point"])), [])
          :: walk_subs none [.leaf "Point"] [] :=
  walk_features_ignores_bare_gc [.leaf "Point"] []

/-- C4 (code bug evidence): a shape layer holding a feature whose
normalized `geoms` list is empty — exactly what `Feature.__post_init__`
produces for unsupported or malformed geometry — makes the draw pass
raise `IndexError` at `feat.geoms[0]` and abort, so the third feature is
never rendered; without the bad feature the same pass completes and
renders both good features. -/
theorem shape_draw_pass_aborts_on_bad_feature :
    draw_layers_pass (fun lat lon => (lon, lat)) (-180, -90, 180, 90)
        [⟨true, [⟨0, .flat [[(0, 0), (10, 0), (10, 10), (0, 10)]]⟩,
                 ⟨1, .flat []⟩,
                 ⟨2, .flat [[(1, 1), (2, 1), (2, 2)]]⟩]⟩]
      = .error .indexError ∧
    draw_layers_pass (fun lat lon => (lon, lat)) (-180, -90, 180, 90)
        [⟨true, [⟨0, .flat [[(0, 0), (10, 0), (10, 10), (0, 10)]]⟩,
                 ⟨2, .flat [[(1, 1), (2, 1), (2, 2)]]⟩]⟩]
      = .ok [0, 2] :=
  ⟨rfl, rfl⟩

/-- C9: for a Polygon `[outer, hole]` with a nonempty projected
coordinate set, the single-channel mask is 0 at every pixel inside the
(shifted) hole ring, 255 at every pixel inside the outer ring but not
the hole, the mask buffer is sized to the pixel bounding box of the
projected rings, and a MultiPolygon is processed as independent
polygons, each with its own first-ring/holes mask. -/
theorem polygon_hole_mask_correct (project : ℚ → ℚ → ℚ × ℚ)
    (outer hole : List (ℚ × ℚ)) (p : ℤ × ℤ)
    (hne : ((([outer, hole]).map (project_ring project)).flatten).isEmpty
      = false) :
    (inside_poly
        (shift_ring (overlay_of (process_polygon project [outer, hole])).min_x
          (overlay_of (process_polygon project [outer, hole])).min_y
          (project_ring project hole)) ((p.1 : ℚ), (p.2 : ℚ)) = true →
      (overlay_of (process_polygon project [outer, hole])).mask p = 0) ∧
    (inside_poly
        (shift_ring (overlay_of (process_polygon project [outer, hole])).min_x
          (overlay_of (process_polygon project [outer, hole])).min_y
          (project_ring project outer)) ((p.1 : ℚ), (p.2 : ℚ)) = true →
      inside_poly
        (shift_ring (overlay_of (process_polygon project [outer, hole])).min_x
          (overlay_of (process_polygon project [outer, hole])).min_y
          (project_ring project hole)) ((p.1 : ℚ), (p.2 : ℚ)) = false →
      (overlay_of (process_polygon project [outer, hole])).mask p = 255) ∧
    (overlay_of (process_polygon project [outer, hole])).w
      = py_int (py_max_list
          (((([outer, hole]).map (project_ring project)).flatten).map (·.1)))
        - py_int (py_min_list
          (((([outer, hole]).map (project_ring project)).flatten).map (·.1)))
      ∧
    (overlay_of (process_polygon project [outer, hole])).h
      = py_int (py_max_list
          (((([outer, hole]).map (project_ring project)).flatten).map (·.2)))
        - py_int (py_min_list
          (((([outer, hole]).map (project_ring project)).flatten).map (·.2)))
      ∧
    (∀ polys, draw_feature_with_holes project (.nested polys)
      = polys.mapM (process_polygon project)) := by
  have hne' :
      (([project_ring project outer,
          project_ring project hole]).flatten).isEmpty = false := by
    simpa using hne
  refine ⟨?_, ?_, ?_, ?_, fun polys => rfl⟩
  · simp only [process_polygon, List.map_cons, List.map_nil, hne',
      Bool.false_eq_true, if_false, overlay_of, List.headD_cons,
      List.drop_succ_cons, List.drop_zero, List.foldl_cons, List.foldl_nil,
      draw_polygon_fill]
    intro hh
    rw [if_pos hh]
  · simp only [process_polygon, List.map_cons, List.map_nil, hne',
      Bool.false_eq_true, if_false, overlay_of, List.headD_cons,
      List.drop_succ_cons, List.drop_zero, List.foldl_cons, List.foldl_nil,
      draw_polygon_fill]
    intro ho hh
    rw [if_neg (fun hc => by rw [hh] at hc; exact Bool.noConfusion hc),
      if_pos ho]
  · simp only [process_polygon, List.map_cons, List.map_nil, hne',
      Bool.false_eq_true, if_false, overlay_of]
  · simp only [process_polygon, List.map_cons, List.map_nil, hne',
      Bool.false_eq_true, if_false, overlay_of]

/-- Witness for C9: the hole-interior pixel `(3,3)` is unfilled (0) and
the annulus pixel `(1,1)` is filled (255). -/
theorem polygon_hole_mask_correct_witness :
    ((([demo_outer, demo_hole]).map
        (project_ring demo_project)).flatten).isEmpty = false ∧
    (overlay_of (process_polygon demo_project [demo_outer, demo_hole])).mask
        (3, 3) = 0 ∧
    (overlay_of (process_polygon demo_project [demo_outer, demo_hole])).mask
        (1, 1) = 255 :=
  ⟨by decide,
    (polygon_hole_mask_correct demo_project demo_outer demo_hole (3, 3)
      (by decide)).1
      (by
        norm_num [inside_poly, edges_of, ray_crosses, project_ring,
          shift_ring, demo_project, demo_hole, demo_outer, process_polygon,
          overlay_of, py_int, py_min_list, py_max_list, min_def, max_def,
          List.filter]),
    ((polygon_hole_mask_correct demo_project demo_outer demo_hole (1, 1)
      (by decide)).2.1
      (by
        norm_num [inside_poly, edges_of, ray_crosses, project_ring,
          shift_ring, demo_project, demo_hole, demo_outer, process_polygon,
          overlay_of, py_int, py_min_list, py_max_list, min_def, max_def,
          List.filter])
      (by
        norm_num [inside_poly, edges_of, ray_crosses, project_ring,
          shift_ring, demo_project, demo_hole, demo_outer, process_polygon,
          overlay_of, py_int, py_min_list, py_max_list, min_def, max_def,
          List.filter]))⟩

end CanvaMap
